import Mathlib

/-!
# Attendance & Grade Management System — verification of the SQL core

Shallow embedding of `src/database/01_init_schema.sql`:
the tables (`Students`, `Courses`, `Enrollments`, `ClassSessions`,
`SessionAttendance`, `SessionHourLog`), the three stored procedures
(`sp_StartSession`, `sp_UpsertAttendanceOnRecognition`, `sp_FinalizeSession`),
the persisted computed grade columns on `Enrollments`
(`AttendancePenalty`, `RawTotal`, `AdjustedTotal`, `AtRisk`)
and the reporting view `vw_Gradebook`.

Modelling conventions:
* `DATETIME2(0)` values (one-second resolution, UTC) are `Nat` seconds.
* `DECIMAL(p,2)` values are `Int` numbers of hundredths (so `10.00 = 1000`).
  Intermediate products with four decimal places (`HoursAbsentTotal * 0.25`)
  are tracked in quarter-hundredths where needed.
* `DATEDIFF(MINUTE, a, b)` truncates both operands to whole minutes and
  subtracts; where the SQL immediately clamps a negative difference
  (`IF @DelayMinutes < 0 SET @DelayMinutes = 0`), we use truncated `Nat`
  subtraction `b / 60 - a / 60`, which is the same clamped value.
* Each table is a `List` of row structures; `SELECT ... WHERE key = ...`
  is `List.find?`, `UPDATE` keyed by the primary key is `List.map` with an
  `if` on the key, and `INSERT` prepends or appends rows.
* `NEWSEQUENTIALID()` session identifiers are modelled as `Nat` supplied by
  the caller; `SYSUTCDATETIME()` defaults are passed in as an explicit
  `now` argument.
-/

namespace AttendanceAI

/-- `ClassSessions.Status`, constrained by `CK_ClassSessions_Status` to
`'active'` or `'finalized'`. -/
inductive SessionStatus where
  | active
  | finalized
  deriving DecidableEq, Repr

/-- `SessionHourLog.Source`: `'system'` (default, seeded at finalize) or
`'recognizer'` (written by `sp_UpsertAttendanceOnRecognition`). -/
inductive HourSource where
  | system
  | recognizer
  deriving DecidableEq, Repr

/-- A row of `dbo.Students` (the columns the attendance core reads). -/
structure Student where
  studentID : Nat
  isActive : Bool
  deriving DecidableEq, Repr

/-- A row of `dbo.Courses` (the columns the attendance core reads).
`LateGraceMinutes` and `MaxAllowedAbsentHours` are SQL `INT`. -/
structure Course where
  courseID : Nat
  lateGraceMinutes : Int
  maxAllowedAbsentHours : Int
  isActive : Bool
  deriving DecidableEq, Repr

/-- A row of `dbo.Enrollments`: six `DECIMAL(5,2)` grade components and the
cumulative `DECIMAL(8,2)` column `HoursAbsentTotal`, all in hundredths.
The persisted computed columns (`AttendancePenalty`, `RawTotal`,
`AdjustedTotal`, `AtRisk`) are functions of these stored columns and are
modelled as the functions `attendancePenalty`, `rawTotal`, `adjustedTotal`,
`atRisk` below. -/
structure Enrollment where
  studentID : Nat
  courseID : Nat
  quiz1 : Int
  quiz2 : Int
  projectGrade : Int
  assignmentGrade : Int
  midtermGrade : Int
  finalExamGrade : Int
  hoursAbsentTotal : Int
  deriving DecidableEq, Repr

/-- A row of `dbo.ClassSessions`. -/
structure ClassSession where
  sessionID : Nat
  courseID : Nat
  startedAt : Nat
  endedAt : Option Nat
  status : SessionStatus
  deriving DecidableEq, Repr

/-- A row of `dbo.SessionAttendance` (primary key `(SessionID, StudentID)`).
`ArrivalDelayMinutes` is `INT NULL`; every write in the procedures stores the
clamped non-negative delay, so it is modelled as `Option Nat`. -/
structure SessionAttendanceRow where
  sessionID : Nat
  studentID : Nat
  firstSeenAt : Option Nat
  lastSeenAt : Option Nat
  isPresent : Bool
  isLate : Bool
  arrivalDelayMinutes : Option Nat
  deriving DecidableEq, Repr

/-- A row of `dbo.SessionHourLog` (primary key
`(SessionID, StudentID, HourIndex)`). `HourIndex` is `INT`; every write is a
non-negative bucket index, modelled as `Nat`. -/
structure SessionHourLogRow where
  sessionID : Nat
  studentID : Nat
  hourIndex : Nat
  hourStart : Nat
  isPresent : Bool
  source : HourSource
  deriving DecidableEq, Repr

/-- The database state: the tables the attendance/grading core touches. -/
structure DB where
  students : List Student
  courses : List Course
  enrollments : List Enrollment
  sessions : List ClassSession
  sessionAttendance : List SessionAttendanceRow
  sessionHourLog : List SessionHourLogRow
  deriving DecidableEq, Repr

/-- `SELECT ... FROM dbo.ClassSessions WHERE SessionID = @SessionID`. -/
def findSession (db : DB) (sid : Nat) : Option ClassSession :=
  db.sessions.find? (fun s => s.sessionID == sid)

/-- `SELECT ... FROM dbo.Courses WHERE CourseID = @CourseID`. -/
def findCourse (db : DB) (cid : Nat) : Option Course :=
  db.courses.find? (fun c => c.courseID == cid)

/-- Lookup in `dbo.SessionAttendance` by its primary key. -/
def findAtt (db : DB) (sid st : Nat) : Option SessionAttendanceRow :=
  db.sessionAttendance.find? (fun r => r.sessionID == sid && r.studentID == st)

/-- Lookup in `dbo.SessionHourLog` by its primary key. -/
def findHour (db : DB) (sid st h : Nat) : Option SessionHourLogRow :=
  db.sessionHourLog.find?
    (fun r => r.sessionID == sid && r.studentID == st && r.hourIndex == h)

/-- `@DelayMinutes = DATEDIFF(MINUTE, @SessionStart, @RecognizedAt);
IF @DelayMinutes < 0 SET @DelayMinutes = 0`.
`DATEDIFF(MINUTE, a, b)` is `b / 60 - a / 60` on whole minutes; the clamp to
zero is exactly truncated `Nat` subtraction. -/
def delayMinutes (sessionStart recognizedAt : Nat) : Nat :=
  recognizedAt / 60 - sessionStart / 60

/-- `@DurationMinutes = DATEDIFF(MINUTE, @StartAt, @EndAt);
IF @DurationMinutes <= 0 SET @DurationMinutes = 1`.
A non-positive `DATEDIFF` becomes `0` under truncated `Nat` subtraction and
the `max 1` realises the `IF <= 0 SET 1` clamp. -/
def durationMinutes (startAt endAt : Nat) : Nat :=
  max 1 (endAt / 60 - startAt / 60)

/-- `@TotalHours = CEILING(@DurationMinutes / 60.0);
IF @TotalHours < 1 SET @TotalHours = 1`.
For a positive integer `m`, `CEILING(m / 60.0) = (m + 59) / 60` under
truncating division. -/
def totalHoursOf (startAt endAt : Nat) : Nat :=
  max 1 ((durationMinutes startAt endAt + 59) / 60)

/-- Errors raised by the SQL engine itself (not by procedure logic):
`sp_StartSession` performs a bare `INSERT`, so a `@CourseID` that matches no
`Courses` row is rejected by the foreign key `FK_ClassSessions_Course`. -/
inductive SqlError where
  | fkViolationCourse
  deriving DecidableEq, Repr

/-- `dbo.sp_StartSession @CourseID, @StartedAt, @SessionID OUTPUT`.
The procedure body only inserts the new `active` session row; it performs no
check of its own (in particular it never reads `Courses.IsActive`). The only
way it can fail is the foreign-key constraint on `CourseID`, which rejects a
`CourseID` matching no course row; on failure nothing is inserted.
`@StartedAt`'s `ISNULL(..., SYSUTCDATETIME())` default and the fresh
`NEWSEQUENTIALID()` are resolved by the caller into `startedAt` / `newSid`. -/
def sp_StartSession (db : DB) (courseID : Nat) (startedAt : Nat) (newSid : Nat) :
    Except SqlError DB :=
  if (findCourse db courseID).isSome then
    .ok { db with
            sessions :=
              { sessionID := newSid, courseID := courseID, startedAt := startedAt,
                endedAt := none, status := SessionStatus.active } :: db.sessions }
  else
    .error SqlError.fkViolationCourse

/-- The `WHEN MATCHED THEN UPDATE` branch of the `MERGE` on
`dbo.SessionAttendance` in `sp_UpsertAttendanceOnRecognition`, applied to the
existing row. `t` is `@RecognizedAt`, `delay` is `@DelayMinutes`, `grace` is
`@GraceMinutes`. -/
def mergeAttendance (old : SessionAttendanceRow) (t : Nat) (delay : Nat)
    (grace : Int) : SessionAttendanceRow :=
  { old with
    firstSeenAt :=
      match old.firstSeenAt with
      | none => some t
      | some f => if t < f then some t else some f
    lastSeenAt :=
      match old.lastSeenAt with
      | none => some t
      | some l => if l < t then some t else some l
    isPresent := true
    isLate :=
      if old.firstSeenAt = none ∧ (delay : Int) > grace then true else old.isLate
    arrivalDelayMinutes :=
      if old.firstSeenAt = none then some delay else old.arrivalDelayMinutes }

/-- `dbo.sp_UpsertAttendanceOnRecognition @SessionID, @StudentID, @RecognizedAt`.
Resolves the session joined with its course (if the join produces no row the
procedure `RETURN`s having changed nothing), clamps the delay, and performs
the two `MERGE` statements on `SessionAttendance` and `SessionHourLog`.
Session status is never consulted. -/
def sp_UpsertAttendanceOnRecognition (db : DB) (sid st : Nat) (t : Nat) : DB :=
  match findSession db sid with
  | none => db
  | some sess =>
    match findCourse db sess.courseID with
    | none => db
    | some c =>
      let delay := delayMinutes sess.startedAt t
      let hourIndex := delay / 60
      let hourStart := sess.startedAt + 3600 * hourIndex
      let att :=
        if (findAtt db sid st).isSome then
          db.sessionAttendance.map (fun r =>
            if r.sessionID == sid && r.studentID == st then
              mergeAttendance r t delay c.lateGraceMinutes
            else r)
        else
          { sessionID := sid, studentID := st, firstSeenAt := some t,
            lastSeenAt := some t, isPresent := true,
            isLate := if (delay : Int) > c.lateGraceMinutes then true else false,
            arrivalDelayMinutes := some delay } :: db.sessionAttendance
      let hl :=
        if (findHour db sid st hourIndex).isSome then
          db.sessionHourLog.map (fun r =>
            if r.sessionID == sid && r.studentID == st && r.hourIndex == hourIndex then
              { r with isPresent := true, source := HourSource.recognizer }
            else r)
        else
          { sessionID := sid, studentID := st, hourIndex := hourIndex,
            hourStart := hourStart, isPresent := true,
            source := HourSource.recognizer } :: db.sessionHourLog
      { db with sessionAttendance := att, sessionHourLog := hl }

/-- The absent `SessionAttendance` row inserted by the absentee backfill of
`sp_FinalizeSession` (`IsPresent = 0`, `IsLate = 0`, `ArrivalDelayMinutes =
NULL`, no timestamps). -/
def backfillRow (sid st : Nat) : SessionAttendanceRow :=
  { sessionID := sid, studentID := st, firstSeenAt := none, lastSeenAt := none,
    isPresent := false, isLate := false, arrivalDelayMinutes := none }

/-- `SessionAbsence.AbsentHours` for one student: the number of that
student's `SessionHourLog` rows for the session with `IsPresent = 0`. -/
def absentHoursOf (hl : List SessionHourLogRow) (sid st : Nat) : Nat :=
  (hl.filter (fun r => r.sessionID == sid && r.studentID == st && !r.isPresent)).length

/-- `UPDATE dbo.ClassSessions SET EndedAt = @EndAt, Status = N'finalized'
WHERE SessionID = @SessionID`. -/
def finalizeSessions (l : List ClassSession) (sid : Nat) (endAt : Nat) :
    List ClassSession :=
  l.map (fun s =>
    if s.sessionID == sid then
      { s with endedAt := some endAt, status := SessionStatus.finalized }
    else s)

/-- The absentee backfill `INSERT` of `sp_FinalizeSession`: one absent row
per `Enrollments` row of course `c` whose `LEFT JOIN` against
`SessionAttendance` finds nothing. The statement reads only `Enrollments`
and `SessionAttendance` — it never joins `Students`. -/
def backfillAtt (db : DB) (sid c : Nat) : List SessionAttendanceRow :=
  (db.enrollments.filter (fun e =>
      e.courseID == c && (findAtt db sid e.studentID).isNone)).map
    (fun e => backfillRow sid e.studentID)

/-- The absent `'system'` hour row seeded at finalize for one
`(student, hour-index)` pair: `HourStart = DATEADD(HOUR, HourIndex, @StartAt)`,
`IsPresent = 0`. -/
def systemHourRow (sid st h startAt : Nat) : SessionHourLogRow :=
  { sessionID := sid, studentID := st, hourIndex := h,
    hourStart := startAt + 3600 * h, isPresent := false,
    source := HourSource.system }

/-- The hour-seeding `INSERT` of `sp_FinalizeSession`: the `HourSeries` CTE
crossed with the course's enrollments, keeping only `(student, hour)` pairs
with no existing `SessionHourLog` row; each new row is absent with source
`'system'`. `OPTION (MAXRECURSION 512)` bounds the CTE: this model is
faithful for `totalHours ≤ 513`; beyond that (a three-week session) the SQL
statement errors out instead. -/
def seedHours (db : DB) (sid c startAt totalHours : Nat) :
    List SessionHourLogRow :=
  (db.enrollments.filter (fun e => e.courseID == c)).flatMap (fun e =>
    ((List.range totalHours).filter
        (fun h => (findHour db sid e.studentID h).isNone)).map (fun h =>
      systemHourRow sid e.studentID h startAt))

/-- The final `UPDATE` of `sp_FinalizeSession`: the `SessionAbsence` CTE
(`absentHoursOf` per student over the updated hour log `hl`) `INNER JOIN`ed
back onto `Enrollments` on `StudentID`, restricted to course `c`. Only
students having at least one hour row for the session are touched
(`INNER JOIN`); adding the integer `AbsentHours` to a `DECIMAL(8,2)` is
`+ 100 * AbsentHours` in hundredths. -/
def aggregateAbsence (enr : List Enrollment) (hl : List SessionHourLogRow)
    (sid c : Nat) : List Enrollment :=
  enr.map (fun e =>
    if e.courseID == c &&
        (hl.find? (fun r => r.sessionID == sid && r.studentID == e.studentID)).isSome then
      { e with hoursAbsentTotal :=
          e.hoursAbsentTotal + 100 * (absentHoursOf hl sid e.studentID : Int) }
    else e)

/-- The mutation sequence of `sp_FinalizeSession` once the guards have
passed: mark the session finalized, backfill absentees, seed absent hour
rows, and fold the absent-hour counts into `Enrollments.HoursAbsentTotal`.
Each statement reads the table states left by the previous ones, exactly as
in the procedure body: the aggregation reads the **updated** hour log. -/
def finalizeCore (db : DB) (sid : Nat) (sess : ClassSession) (endAt : Nat) : DB :=
  let totalHours := totalHoursOf sess.startedAt endAt
  let hl' := db.sessionHourLog ++ seedHours db sid sess.courseID sess.startedAt totalHours
  { db with
    sessions := finalizeSessions db.sessions sid endAt
    sessionAttendance := db.sessionAttendance ++ backfillAtt db sid sess.courseID
    sessionHourLog := hl'
    enrollments := aggregateAbsence db.enrollments hl' sid sess.courseID }

/-- `dbo.sp_FinalizeSession @SessionID`, with `now` standing for the
`SYSUTCDATETIME()` used when `EndedAt` is still `NULL`.

Mirrors the procedure body: no session row → `RETURN` (`@CourseID IS NULL`);
status already `'finalized'` → `RETURN`; otherwise run the finalize mutation
sequence with `@EndAt = ISNULL(EndedAt, SYSUTCDATETIME())`. -/
def sp_FinalizeSession (db : DB) (sid : Nat) (now : Nat) : DB :=
  match findSession db sid with
  | none => db
  | some sess =>
    if sess.status = SessionStatus.finalized then db
    else finalizeCore db sid sess (sess.endedAt.getD now)

/-! ## GradeEngine: the persisted computed columns and `vw_Gradebook` -/

/-- `CAST(v AS DECIMAL(8,2))` applied to a value of `q` quarter-hundredths
(`v = q / 4` hundredths): SQL Server rounds half away from zero. For `q ≥ 0`
this is `(q + 2) / 4` under truncating division, mirrored for negative `q`. -/
def castDec2OfQuarters (q : Int) : Int :=
  if 0 ≤ q then ((q.toNat + 2) / 4 : Nat) else -(((-q).toNat + 2) / 4 : Nat)

/-- `AttendancePenalty AS CAST(HoursAbsentTotal * 0.25 AS DECIMAL(8,2))`.
`h` hundredths of hours times `0.25` is `h` quarter-hundredths. -/
def attendancePenalty (h : Int) : Int :=
  castDec2OfQuarters h

/-- `RawTotal AS CAST(ISNULL(Quiz1,0) + ... + ISNULL(FinalExamGrade,0) AS
DECIMAL(8,2))`. All six components are `NOT NULL` and already two-decimal,
so the sum is exact. -/
def rawTotal (e : Enrollment) : Int :=
  e.quiz1 + e.quiz2 + e.projectGrade + e.assignmentGrade + e.midtermGrade +
    e.finalExamGrade

/-- `AdjustedTotal`: the `CASE` clamps the un-rounded value
`RawTotal - HoursAbsentTotal * 0.25` (here `4 * raw - h` quarter-hundredths)
at zero, and only then the outer `CAST` rounds to two decimals. -/
def adjustedTotal (raw h : Int) : Int :=
  if 4 * raw - h < 0 then 0 else castDec2OfQuarters (4 * raw - h)

/-- `AtRisk`: the stored flag repeats the clamped **pre-rounding** adjusted
value (quarter-hundredths) and compares it with `60` (= `24000`
quarter-hundredths), or checks `HoursAbsentTotal >= 8` (= `800` hundredths). -/
def atRisk (raw h : Int) : Bool :=
  if (if 4 * raw - h < 0 then 0 else 4 * raw - h) < 24000 ∨ 800 ≤ h then true
  else false

/-- The `AtRiskByPolicy` expression of `vw_Gradebook`: it reads the persisted
(rounded) `AdjustedTotal` column and the per-course `MaxAllowedAbsentHours`
(`maxA` whole hours = `100 * maxA` hundredths). -/
def atRiskByPolicy (raw h maxA : Int) : Bool :=
  if adjustedTotal raw h < 6000 ∨ 100 * maxA ≤ h then true else false

/-- One row of `dbo.vw_Gradebook` (the derived columns the claims mention). -/
structure GradebookRow where
  courseID : Nat
  studentID : Nat
  hoursAbsentTotal : Int
  attendancePenalty : Int
  rawTotal : Int
  adjustedTotal : Int
  atRisk : Bool
  atRiskByPolicy : Bool
  deriving DecidableEq, Repr

/-- `dbo.vw_Gradebook`: `Enrollments INNER JOIN Students INNER JOIN Courses`,
projecting the stored computed columns and the view-computed
`AtRiskByPolicy`. -/
def vw_Gradebook (db : DB) : List GradebookRow :=
  db.enrollments.flatMap (fun e =>
    match db.students.find? (fun s => s.studentID == e.studentID),
          findCourse db e.courseID with
    | some s, some c =>
      [{ courseID := c.courseID, studentID := s.studentID,
         hoursAbsentTotal := e.hoursAbsentTotal,
         attendancePenalty := attendancePenalty e.hoursAbsentTotal,
         rawTotal := rawTotal e,
         adjustedTotal := adjustedTotal (rawTotal e) e.hoursAbsentTotal,
         atRisk := atRisk (rawTotal e) e.hoursAbsentTotal,
         atRiskByPolicy :=
           atRiskByPolicy (rawTotal e) e.hoursAbsentTotal c.maxAllowedAbsentHours }]
    | _, _ => [])

/-! ## Generic helper lemmas -/

/-- An `UPDATE` keyed by the row predicate `p` commutes with `find? p`,
provided the update `g` keeps a matching row matching. -/
theorem find?_map_keyed_update {α : Type _} (p : α → Bool) (g : α → α)
    (hg : ∀ a, p a = true → p (g a) = true) (l : List α) :
    (l.map (fun a => if p a then g a else a)).find? p = (l.find? p).map g := by
  induction l with
  | nil => rfl
  | cons a l ih =>
    by_cases h : p a
    · simp only [List.map_cons, if_pos h, List.find?_cons_of_pos _ (hg a h),
        List.find?_cons_of_pos _ h, Option.map_some']
    · simp only [List.map_cons, if_neg h, List.find?_cons_of_neg _ h, ih,
        List.find?_cons_of_neg,
        List.find?_cons_of_neg _ (by simpa using h)]

/-- The sum of a constant over a list. -/
theorem sum_map_const {α : Type _} (l : List α) (k : Nat) :
    (l.map (fun _ => k)).sum = l.length * k := by
  induction l with
  | nil => simp
  | cons a l ih => simp [ih, Nat.succ_mul, Nat.add_comm]

/-- A SQL `CASE WHEN c THEN 1 ELSE 0 END` bit is set exactly when the
condition holds. -/
theorem ite_bit_eq_true {c : Prop} [Decidable c] :
    (if c then true else false) = true ↔ c := by
  by_cases h : c <;> simp [h]

/-! ## C5 / C6: GradeEngine -/

/-- Enrollment with `RawTotal = 10.00` and `HoursAbsentTotal = 0.02`. -/
def enrC5 : Enrollment :=
  { studentID := 1, courseID := 1, quiz1 := 1000, quiz2 := 0, projectGrade := 0,
    assignmentGrade := 0, midtermGrade := 0, finalExamGrade := 0,
    hoursAbsentTotal := 2 }

/-- C5 counterexample: at `RawTotal = 10.00`, `HoursAbsentTotal = 0.02` the
persisted `AdjustedTotal` is `10.00` (the `CASE` subtracts the un-rounded
`0.0025` and only then the `CAST` rounds `9.9975` up), while the claimed
`max(0, RawTotal - AttendancePenalty)` is `9.99` (the penalty `0.0025` first
rounds to `0.00`... here to `0.01`? no: `0.0025 → 0.00`; with `h = 0.02` the
penalty `0.005` rounds to `0.01`, giving `9.99`). The two disagree. -/
theorem adjustedTotal_rounding_counterexample :
    rawTotal enrC5 = 1000 ∧ enrC5.hoursAbsentTotal = 2 ∧
    adjustedTotal (rawTotal enrC5) enrC5.hoursAbsentTotal = 1000 ∧
    max 0 (rawTotal enrC5 - attendancePenalty enrC5.hoursAbsentTotal) = 999 ∧
    adjustedTotal (rawTotal enrC5) enrC5.hoursAbsentTotal ≠
      max 0 (rawTotal enrC5 - attendancePenalty enrC5.hoursAbsentTotal) := by
  decide

/-- C5 (amended): `AdjustedTotal` is never negative, and it equals
`max(0, RawTotal - AttendancePenalty)` whenever `HoursAbsentTotal` is a
multiple of `0.04` (four hundredths, i.e. `4 ∣ h`) — in particular for every
whole number of absent hours, which is all the aggregator ever writes. In
general the column rounds **after** the subtraction. -/
theorem adjustedTotal_nonneg_and_formula (raw h : Int) :
    0 ≤ adjustedTotal raw h ∧
    (4 ∣ h → adjustedTotal raw h = max 0 (raw - attendancePenalty h)) := by
  unfold adjustedTotal attendancePenalty castDec2OfQuarters
  constructor
  · split_ifs <;> omega
  · intro hd
    split_ifs <;> omega

/-- C5 witness: the amended equality evaluated at `RawTotal = 70.00`,
`HoursAbsentTotal = 9.00`. -/
theorem adjustedTotal_nonneg_and_formula_witness :
    0 ≤ adjustedTotal 7000 900 ∧
    adjustedTotal 7000 900 = max 0 (7000 - attendancePenalty 900) :=
  ⟨(adjustedTotal_nonneg_and_formula 7000 900).1,
   (adjustedTotal_nonneg_and_formula 7000 900).2 (by decide)⟩

/-- Enrollment with `RawTotal = 60.00` and `HoursAbsentTotal = 0.02`. -/
def enrC6 : Enrollment :=
  { studentID := 1, courseID := 1, quiz1 := 6000, quiz2 := 0, projectGrade := 0,
    assignmentGrade := 0, midtermGrade := 0, finalExamGrade := 0,
    hoursAbsentTotal := 2 }

/-- C6 counterexample: at `RawTotal = 60.00`, `HoursAbsentTotal = 0.02` the
stored `AtRisk` bit is `1` (it compares the pre-rounding `59.9975 < 60`),
yet `AdjustedTotal` rounds back up to `60.00`, so the claimed formula
`AdjustedTotal < 60 OR HoursAbsentTotal >= 8` is false. -/
theorem atRisk_rounding_counterexample :
    atRisk (rawTotal enrC6) enrC6.hoursAbsentTotal = true ∧
    ¬(adjustedTotal (rawTotal enrC6) enrC6.hoursAbsentTotal < 6000 ∨
      (800 : Int) ≤ enrC6.hoursAbsentTotal) := by
  decide

/-- Course, student and enrollment realizing the spec scenario
`MaxAllowedAbsentHours = 8`, `HoursAbsentTotal = 9`, `RawTotal = 70`. -/
def dbScenario : DB :=
  { students := [{ studentID := 7, isActive := true }]
    courses := [{ courseID := 3, lateGraceMinutes := 10,
                  maxAllowedAbsentHours := 8, isActive := true }]
    enrollments :=
      [{ studentID := 7, courseID := 3, quiz1 := 7000, quiz2 := 0,
         projectGrade := 0, assignmentGrade := 0, midtermGrade := 0,
         finalExamGrade := 0, hoursAbsentTotal := 900 }]
    sessions := []
    sessionAttendance := []
    sessionHourLog := [] }

/-- C6 (amended): `AtRiskByPolicy` equals
`AdjustedTotal < 60 OR HoursAbsentTotal >= MaxAllowedAbsentHours` exactly as
claimed; the stored `AtRisk` equals `AdjustedTotal < 60 OR
HoursAbsentTotal >= 8` whenever `HoursAbsentTotal` is a multiple of `0.04`
(in particular for whole absent hours) — in general it compares the
pre-rounding adjusted value with 60. Both flags appear as distinct columns of
the gradebook projection, as shown on the spec scenario (`penalty 2.25`,
`adjusted 67.75`, both flags set). -/
theorem atRisk_flags_characterization (raw h maxA : Int) :
    (4 ∣ h → (atRisk raw h = true ↔ (adjustedTotal raw h < 6000 ∨ 800 ≤ h))) ∧
    (atRiskByPolicy raw h maxA = true ↔
      (adjustedTotal raw h < 6000 ∨ 100 * maxA ≤ h)) ∧
    vw_Gradebook dbScenario =
      [{ courseID := 3, studentID := 7, hoursAbsentTotal := 900,
         attendancePenalty := 225, rawTotal := 7000, adjustedTotal := 6775,
         atRisk := true, atRiskByPolicy := true }] := by
  refine ⟨fun hd => ?_, ?_, by decide⟩
  · rw [show atRisk raw h = true ↔
        ((if 4 * raw - h < 0 then 0 else 4 * raw - h) < 24000 ∨ 800 ≤ h) from
      ite_bit_eq_true]
    unfold adjustedTotal castDec2OfQuarters
    split_ifs <;> omega
  · rw [show atRiskByPolicy raw h maxA = true ↔
        (adjustedTotal raw h < 6000 ∨ 100 * maxA ≤ h) from ite_bit_eq_true]

/-- C6 witness: the amended characterization of the stored flag evaluated at
the spec scenario values. -/
theorem atRisk_flags_characterization_witness :
    atRisk 7000 900 = true ↔ (adjustedTotal 7000 900 < 6000 ∨ (800 : Int) ≤ 900) :=
  (atRisk_flags_characterization 7000 900 8).1 (by decide)

/-! ## C7: NotFound behaviour of `sp_StartSession` / `sp_FinalizeSession` -/

/-- A database whose only course exists but is inactive. -/
def dbInactiveCourse : DB :=
  { students := []
    courses := [{ courseID := 4, lateGraceMinutes := 10,
                  maxAllowedAbsentHours := 8, isActive := false }]
    enrollments := []
    sessions := []
    sessionAttendance := []
    sessionHourLog := [] }

/-- C7 counterexample: `sp_StartSession` with a course that exists but is
**inactive** does not fail — it inserts the session row (the procedure never
reads `Courses.IsActive`; only the foreign key is checked). -/
theorem startSession_inactive_course_counterexample :
    (findCourse dbInactiveCourse 4).map Course.isActive = some false ∧
    (sp_StartSession dbInactiveCourse 4 100 77).toOption =
      some { dbInactiveCourse with
               sessions := [{ sessionID := 77, courseID := 4, startedAt := 100,
                              endedAt := none, status := SessionStatus.active }] } := by
  decide

/-- C7 (amended): `sp_StartSession` fails (foreign-key rejection, nothing
inserted) exactly when `course_id` matches no course row at all — an inactive
course is accepted and the session row is inserted; `sp_FinalizeSession` with
an unknown `session_id` performs no mutation (it returns silently rather than
raising a distinct NotFound error). -/
theorem notFound_no_mutation_behavior (db : DB) (cid t nsid sid now : Nat) :
    (findCourse db cid = none →
      sp_StartSession db cid t nsid = Except.error SqlError.fkViolationCourse) ∧
    ((findCourse db cid).isSome →
      sp_StartSession db cid t nsid =
        Except.ok { db with
          sessions := { sessionID := nsid, courseID := cid, startedAt := t,
                        endedAt := none, status := SessionStatus.active }
            :: db.sessions }) ∧
    (findSession db sid = none → sp_FinalizeSession db sid now = db) := by
  refine ⟨fun h => ?_, fun h => ?_, fun h => ?_⟩
  · unfold sp_StartSession
    rw [h]
    rfl
  · unfold sp_StartSession
    rw [if_pos h]
  · unfold sp_FinalizeSession
    rw [h]

/-- C7 witness: the amended behaviour evaluated on the inactive-course
database: finalizing an unknown session changes nothing, and starting a
session for an unknown course id is rejected. -/
theorem notFound_no_mutation_behavior_witness :
    sp_FinalizeSession dbInactiveCourse 5 0 = dbInactiveCourse ∧
    sp_StartSession dbInactiveCourse 9 0 1 =
      Except.error SqlError.fkViolationCourse :=
  ⟨(notFound_no_mutation_behavior dbInactiveCourse 9 0 1 5 0).2.2 (by decide),
   (notFound_no_mutation_behavior dbInactiveCourse 9 0 1 5 0).1 (by decide)⟩

/-! ## Stability lemmas for the procedures -/

/-- `sp_UpsertAttendanceOnRecognition` writes only `SessionAttendance` and
`SessionHourLog`. -/
theorem upsert_sessions_eq (db : DB) (sid st t : Nat) :
    (sp_UpsertAttendanceOnRecognition db sid st t).sessions = db.sessions := by
  unfold sp_UpsertAttendanceOnRecognition
  split
  · rfl
  · split <;> rfl

/-- `sp_UpsertAttendanceOnRecognition` never touches `Courses`. -/
theorem upsert_courses_eq (db : DB) (sid st t : Nat) :
    (sp_UpsertAttendanceOnRecognition db sid st t).courses = db.courses := by
  unfold sp_UpsertAttendanceOnRecognition
  split
  · rfl
  · split <;> rfl

/-- `sp_UpsertAttendanceOnRecognition` never touches `Enrollments` — in
particular no recognition event can change any `HoursAbsentTotal`. -/
theorem upsert_enrollments_eq (db : DB) (sid st t : Nat) :
    (sp_UpsertAttendanceOnRecognition db sid st t).enrollments = db.enrollments := by
  unfold sp_UpsertAttendanceOnRecognition
  split
  · rfl
  · split <;> rfl

/-- Session lookups are unaffected by recognition upserts. -/
theorem findSession_upsert (db : DB) (sid st t q : Nat) :
    findSession (sp_UpsertAttendanceOnRecognition db sid st t) q = findSession db q := by
  unfold findSession
  rw [upsert_sessions_eq]

/-- Course lookups are unaffected by recognition upserts. -/
theorem findCourse_upsert (db : DB) (sid st t : Nat) (q : Nat) :
    findCourse (sp_UpsertAttendanceOnRecognition db sid st t) q = findCourse db q := by
  unfold findCourse
  rw [upsert_courses_eq]

/-! ## C1: finalize is an idempotent no-op on a finalized session -/

/-- The session-row `UPDATE` commutes with the keyed lookup: afterwards the
looked-up row carries `EndedAt = endAt` and status `finalized`. -/
theorem find?_finalizeSessions (l : List ClassSession) (sid : Nat) (endAt : Nat) :
    (finalizeSessions l sid endAt).find? (fun s => s.sessionID == sid) =
      (l.find? (fun s => s.sessionID == sid)).map
        (fun s => { s with endedAt := some endAt,
                           status := SessionStatus.finalized }) := by
  unfold finalizeSessions
  exact find?_map_keyed_update (fun s => s.sessionID == sid)
    (fun s => { s with endedAt := some endAt, status := SessionStatus.finalized })
    (fun a ha => ha) l

/-- After the finalize mutation sequence the session row is `finalized` with
the chosen `EndedAt`. -/
theorem findSession_finalizeCore (db : DB) (sid : Nat) (sess : ClassSession)
    (endAt : Nat) (hs : findSession db sid = some sess) :
    findSession (finalizeCore db sid sess endAt) sid =
      some { sess with endedAt := some endAt,
                       status := SessionStatus.finalized } := by
  show (finalizeSessions db.sessions sid endAt).find? (fun s => s.sessionID == sid) = _
  rw [find?_finalizeSessions]
  unfold findSession at hs
  rw [hs]
  rfl

/-- On any session, `sp_FinalizeSession` leaves the session row either
untouched or `finalized`; a second call therefore always finds a `finalized`
(or absent) session and returns its input unchanged. -/
theorem finalize_finalize_eq (db : DB) (sid : Nat) (now now' : Nat) :
    sp_FinalizeSession (sp_FinalizeSession db sid now) sid now' =
      sp_FinalizeSession db sid now := by
  rcases hs : findSession db sid with _ | sess
  · have h1 : sp_FinalizeSession db sid now = db := by
      unfold sp_FinalizeSession
      rw [hs]
    rw [h1]
    unfold sp_FinalizeSession
    rw [hs]
  · by_cases hfin : sess.status = SessionStatus.finalized
    · have h1 : sp_FinalizeSession db sid now = db := by
        unfold sp_FinalizeSession
        rw [hs]
        simp [hfin]
      rw [h1]
      unfold sp_FinalizeSession
      rw [hs]
      simp [hfin]
    · have h1 : sp_FinalizeSession db sid now =
          finalizeCore db sid sess (sess.endedAt.getD now) := by
        unfold sp_FinalizeSession
        rw [hs]
        simp [hfin]
      have h2 := findSession_finalizeCore db sid sess (sess.endedAt.getD now) hs
      rw [h1]
      unfold sp_FinalizeSession
      rw [h2]
      simp

/-- C1: `sp_FinalizeSession` on an already-`finalized` session mutates
nothing at all — the whole database state (session row, attendance rows, hour
rows, every enrollment's `HoursAbsentTotal`) is returned unchanged — and
finalizing twice always equals finalizing once. -/
theorem sp_FinalizeSession_idempotent_on_finalized (db : DB) (sid now : Nat)
    (sess : ClassSession) (hs : findSession db sid = some sess)
    (hfin : sess.status = SessionStatus.finalized) :
    sp_FinalizeSession db sid now = db ∧
    ∀ (d : DB) (q m m' : Nat),
      sp_FinalizeSession (sp_FinalizeSession d q m) q m' =
        sp_FinalizeSession d q m := by
  refine ⟨?_, fun d q m m' => finalize_finalize_eq d q m m'⟩
  unfold sp_FinalizeSession
  rw [hs]
  simp [hfin]

/-- A one-course database whose only session is already finalized. -/
def dbFinalized : DB :=
  { students := [{ studentID := 1, isActive := true }]
    courses := [{ courseID := 1, lateGraceMinutes := 10,
                  maxAllowedAbsentHours := 8, isActive := true }]
    enrollments :=
      [{ studentID := 1, courseID := 1, quiz1 := 0, quiz2 := 0,
         projectGrade := 0, assignmentGrade := 0, midtermGrade := 0,
         finalExamGrade := 0, hoursAbsentTotal := 300 }]
    sessions := [{ sessionID := 10, courseID := 1, startedAt := 0,
                   endedAt := some 7500, status := SessionStatus.finalized }]
    sessionAttendance := [backfillRow 10 1]
    sessionHourLog := []  }

/-- C1 witness: re-finalizing the concrete finalized session changes
nothing. -/
theorem sp_FinalizeSession_idempotent_on_finalized_witness :
    sp_FinalizeSession dbFinalized 10 9999 = dbFinalized :=
  (sp_FinalizeSession_idempotent_on_finalized dbFinalized 10 9999
    { sessionID := 10, courseID := 1, startedAt := 0, endedAt := some 7500,
      status := SessionStatus.finalized } (by decide) (by decide)).1

/-! ## C9: `FirstSeenAt <= LastSeenAt` -/

/-- The invariant on a `SessionAttendance` row: whenever both timestamps are
set, `FirstSeenAt <= LastSeenAt`. -/
def RecordOk (r : SessionAttendanceRow) : Prop :=
  match r.firstSeenAt, r.lastSeenAt with
  | some f, some l => f ≤ l
  | _, _ => True

/-- The invariant over the whole `SessionAttendance` table. -/
def AttendanceOk (db : DB) : Prop :=
  ∀ r ∈ db.sessionAttendance, RecordOk r

/-- The `WHEN MATCHED` update takes `min` for `FirstSeenAt` and `max` for
`LastSeenAt`, so it preserves the invariant on the row. -/
theorem mergeAttendance_recordOk (r : SessionAttendanceRow) (t delay : Nat)
    (g : Int) (h : RecordOk r) : RecordOk (mergeAttendance r t delay g) := by
  unfold RecordOk mergeAttendance at *
  rcases hf : r.firstSeenAt with _ | f <;> rcases hl : r.lastSeenAt with _ | l <;>
    rw [hf, hl] at h <;>
    simp only [hf, hl] <;> split_ifs <;> simp_all

/-- One recognition upsert preserves the invariant (the inserted row has
`FirstSeenAt = LastSeenAt`). -/
theorem upsert_attendanceOk (db : DB) (sid st t : Nat) (h : AttendanceOk db) :
    AttendanceOk (sp_UpsertAttendanceOnRecognition db sid st t) := by
  unfold sp_UpsertAttendanceOnRecognition
  split
  · exact h
  · split
    · exact h
    · intro r hr
      simp only at hr
      split at hr
      · rcases List.mem_map.mp hr with ⟨a, ha, rfl⟩
        split
        · exact mergeAttendance_recordOk a t _ _ (h a ha)
        · exact h a ha
      · rcases List.mem_cons.mp hr with rfl | ha
        · simp [RecordOk]
        · exact h _ ha

/-- C9: for every database satisfying `FirstSeenAt <= LastSeenAt` wherever
both are set, the invariant still holds after any sequence of recognition
events `(session, student, time)` is processed by
`sp_UpsertAttendanceOnRecognition`. -/
theorem firstSeen_le_lastSeen_invariant (events : List (Nat × Nat × Nat)) :
    ∀ (db : DB), AttendanceOk db →
      AttendanceOk (events.foldl
        (fun d ev => sp_UpsertAttendanceOnRecognition d ev.1 ev.2.1 ev.2.2) db) := by
  induction events with
  | nil => exact fun db h => h
  | cons ev evs ih =>
    intro db h
    exact ih _ (upsert_attendanceOk db ev.1 ev.2.1 ev.2.2 h)

/-- C9 witness: a concrete three-event stream (late first sighting, then an
earlier and a later one) processed from an empty attendance table. -/
theorem firstSeen_le_lastSeen_invariant_witness :
    AttendanceOk ([((10 : Nat), (1 : Nat), (720 : Nat)), (10, 1, 300), (10, 1, 900)].foldl
      (fun d ev => sp_UpsertAttendanceOnRecognition d ev.1 ev.2.1 ev.2.2)
      dbFinalized) :=
  firstSeen_le_lastSeen_invariant _ dbFinalized
    (by intro r hr; simp [dbFinalized, backfillRow] at hr; simp [hr, RecordOk])

/-! ## C2 / C10: the recognition upsert -/

/-- When a `SessionAttendance` row already exists, the upsert routes through
the `WHEN MATCHED` branch: the looked-up row afterwards is exactly
`mergeAttendance` of the old row. -/
theorem findAtt_upsert_matched (db : DB) (sid st t : Nat) (sess : ClassSession)
    (c : Course) (r : SessionAttendanceRow)
    (hs : findSession db sid = some sess)
    (hc : findCourse db sess.courseID = some c)
    (hr : findAtt db sid st = some r) :
    findAtt (sp_UpsertAttendanceOnRecognition db sid st t) sid st =
      some (mergeAttendance r t (delayMinutes sess.startedAt t)
        c.lateGraceMinutes) := by
  unfold sp_UpsertAttendanceOnRecognition
  simp only [hs, hc, hr, Option.isSome_some, if_true]
  show (db.sessionAttendance.map _).find? _ = _
  rw [find?_map_keyed_update (fun x => x.sessionID == sid && x.studentID == st)
        (fun x => mergeAttendance x t (delayMinutes sess.startedAt t)
          c.lateGraceMinutes) (fun a ha => ha)]
  unfold findAtt at hr
  rw [hr]
  rfl

/-- When no `SessionAttendance` row exists, the upsert routes through the
`WHEN NOT MATCHED` branch: afterwards the looked-up row is the freshly
inserted one (`FirstSeenAt = LastSeenAt = @RecognizedAt`, present, lateness
and arrival delay decided from this event). -/
theorem findAtt_upsert_inserted (db : DB) (sid st t : Nat) (sess : ClassSession)
    (c : Course) (hs : findSession db sid = some sess)
    (hc : findCourse db sess.courseID = some c)
    (hnone : findAtt db sid st = none) :
    findAtt (sp_UpsertAttendanceOnRecognition db sid st t) sid st =
      some { sessionID := sid, studentID := st, firstSeenAt := some t,
             lastSeenAt := some t, isPresent := true,
             isLate := if (delayMinutes sess.startedAt t : Int) >
                 c.lateGraceMinutes then true else false,
             arrivalDelayMinutes := some (delayMinutes sess.startedAt t) } := by
  unfold sp_UpsertAttendanceOnRecognition
  simp only [hs, hc, hnone, Option.isSome_none, Bool.false_eq_true, if_false]
  show List.find? _ (_ :: db.sessionAttendance) = _
  rw [List.find?_cons_of_pos _ (by simp)]

/-- When the event's hour bucket already has a `SessionHourLog` row, the
second `MERGE` updates it to present with source `'recognizer'`. -/
theorem findHour_upsert_matched (db : DB) (sid st t : Nat) (sess : ClassSession)
    (c : Course) (hrow : SessionHourLogRow)
    (hs : findSession db sid = some sess)
    (hc : findCourse db sess.courseID = some c)
    (hhr : findHour db sid st (delayMinutes sess.startedAt t / 60) = some hrow) :
    findHour (sp_UpsertAttendanceOnRecognition db sid st t) sid st
        (delayMinutes sess.startedAt t / 60) =
      some { hrow with isPresent := true, source := HourSource.recognizer } := by
  unfold sp_UpsertAttendanceOnRecognition
  simp only [hs, hc, hhr, Option.isSome_some, if_true]
  show List.find? _ (db.sessionHourLog.map _) = _
  rw [find?_map_keyed_update
        (fun x : SessionHourLogRow => x.sessionID == sid && x.studentID == st &&
          x.hourIndex == delayMinutes sess.startedAt t / 60)
        (fun x : SessionHourLogRow =>
          { x with isPresent := true, source := HourSource.recognizer })
        (fun a ha => ha)]
  unfold findHour at hhr
  rw [hhr]
  rfl

/-- When the event's hour bucket has no `SessionHourLog` row yet, the second
`MERGE` inserts a present `'recognizer'` row for it. -/
theorem findHour_upsert_inserted (db : DB) (sid st t : Nat) (sess : ClassSession)
    (c : Course) (hs : findSession db sid = some sess)
    (hc : findCourse db sess.courseID = some c)
    (hnone : findHour db sid st (delayMinutes sess.startedAt t / 60) = none) :
    findHour (sp_UpsertAttendanceOnRecognition db sid st t) sid st
        (delayMinutes sess.startedAt t / 60) =
      some { sessionID := sid, studentID := st,
             hourIndex := delayMinutes sess.startedAt t / 60,
             hourStart := sess.startedAt + 3600 * (delayMinutes sess.startedAt t / 60),
             isPresent := true, source := HourSource.recognizer } := by
  unfold sp_UpsertAttendanceOnRecognition
  simp only [hs, hc, hnone, Option.isSome_none, Bool.false_eq_true, if_false]
  show List.find? _ (_ :: db.sessionHourLog) = _
  rw [List.find?_cons_of_pos _ (by simp)]

/-- One further event on a row whose `FirstSeenAt` is already set keeps the
once-decided `IsLate` / `ArrivalDelayMinutes` (and `FirstSeenAt` stays set). -/
theorem upsert_keeps_decision (db : DB) (sid st t : Nat) (sess : ClassSession)
    (c : Course) (r : SessionAttendanceRow)
    (hs : findSession db sid = some sess)
    (hc : findCourse db sess.courseID = some c)
    (hr : findAtt db sid st = some r) (hfs : r.firstSeenAt.isSome) :
    ∃ r', findAtt (sp_UpsertAttendanceOnRecognition db sid st t) sid st = some r' ∧
      r'.firstSeenAt.isSome ∧ r'.isLate = r.isLate ∧
      r'.arrivalDelayMinutes = r.arrivalDelayMinutes := by
  obtain ⟨f, hf⟩ := Option.isSome_iff_exists.mp hfs
  refine ⟨_, findAtt_upsert_matched db sid st t sess c r hs hc hr, ?_, ?_, ?_⟩
  · unfold mergeAttendance
    simp only [hf]
    split_ifs <;> simp
  · unfold mergeAttendance
    simp [hf]
  · unfold mergeAttendance
    simp [hf]

/-- Folding any further events for the same `(session, student)` over a
state whose row has `FirstSeenAt` set never changes `IsLate` or
`ArrivalDelayMinutes`. -/
theorem foldl_upsert_keeps_decision (ts : List Nat) :
    ∀ (d : DB) (sid st : Nat) (sess : ClassSession) (c : Course)
      (r : SessionAttendanceRow),
      findSession d sid = some sess → findCourse d sess.courseID = some c →
      findAtt d sid st = some r → r.firstSeenAt.isSome →
      ∃ r', findAtt (ts.foldl
          (fun x u => sp_UpsertAttendanceOnRecognition x sid st u) d) sid st =
            some r' ∧
        r'.isLate = r.isLate ∧ r'.arrivalDelayMinutes = r.arrivalDelayMinutes := by
  induction ts with
  | nil =>
    intro d sid st sess c r _ _ hr _
    exact ⟨r, hr, rfl, rfl⟩
  | cons u us ih =>
    intro d sid st sess c r hs hc hr hfs
    obtain ⟨r1, hr1, hfs1, hL, hA⟩ :=
      upsert_keeps_decision d sid st u sess c r hs hc hr hfs
    have hs' : findSession (sp_UpsertAttendanceOnRecognition d sid st u) sid =
        some sess := by rw [findSession_upsert]; exact hs
    have hc' : findCourse (sp_UpsertAttendanceOnRecognition d sid st u)
        sess.courseID = some c := by rw [findCourse_upsert]; exact hc
    obtain ⟨r', h1, h2, h3⟩ :=
      ih (sp_UpsertAttendanceOnRecognition d sid st u) sid st sess c r1 hs' hc' hr1 hfs1
    exact ⟨r', h1, h2.trans hL, h3.trans hA⟩

/-- C2: over any event sequence for one `(session, student)` starting with no
attendance row, lateness and arrival delay are decided by the first processed
event and never revised: first delay within grace → `IsLate` false after the
whole sequence; first delay beyond grace → `IsLate` true and
`ArrivalDelayMinutes` equal to the first event's delay, whatever the later
events' delays. -/
theorem lateness_decided_at_first_event (db : DB) (sid st : Nat)
    (sess : ClassSession) (c : Course)
    (hs : findSession db sid = some sess)
    (hc : findCourse db sess.courseID = some c)
    (hnone : findAtt db sid st = none) (t0 : Nat) (ts : List Nat) :
    ∃ r, findAtt ((t0 :: ts).foldl
        (fun x u => sp_UpsertAttendanceOnRecognition x sid st u) db) sid st =
          some r ∧
      ((delayMinutes sess.startedAt t0 : Int) ≤ c.lateGraceMinutes →
        r.isLate = false) ∧
      ((delayMinutes sess.startedAt t0 : Int) > c.lateGraceMinutes →
        r.isLate = true ∧
        r.arrivalDelayMinutes = some (delayMinutes sess.startedAt t0)) := by
  have h0 := findAtt_upsert_inserted db sid st t0 sess c hs hc hnone
  have hs' : findSession (sp_UpsertAttendanceOnRecognition db sid st t0) sid =
      some sess := by rw [findSession_upsert]; exact hs
  have hc' : findCourse (sp_UpsertAttendanceOnRecognition db sid st t0)
      sess.courseID = some c := by rw [findCourse_upsert]; exact hc
  obtain ⟨r, h1, h2, h3⟩ :=
    foldl_upsert_keeps_decision ts (sp_UpsertAttendanceOnRecognition db sid st t0)
      sid st sess c _ hs' hc' h0 (by simp)
  refine ⟨r, h1, fun hle => ?_, fun hgt => ?_⟩
  · rw [h2]
    simp only [if_neg (not_lt.mpr hle)]
  · refine ⟨by rw [h2]; simp only [if_pos hgt], by rw [h3]⟩

/-- A session for course 1 with a backfilled absentee and three recognition
events (12 min late, then earlier, then later). -/
def dbEvents : DB :=
  { students := [{ studentID := 1, isActive := true }]
    courses := [{ courseID := 1, lateGraceMinutes := 10,
                  maxAllowedAbsentHours := 8, isActive := true }]
    enrollments :=
      [{ studentID := 1, courseID := 1, quiz1 := 0, quiz2 := 0,
         projectGrade := 0, assignmentGrade := 0, midtermGrade := 0,
         finalExamGrade := 0, hoursAbsentTotal := 0 }]
    sessions := [{ sessionID := 10, courseID := 1, startedAt := 0,
                   endedAt := none, status := SessionStatus.active }]
    sessionAttendance := []
    sessionHourLog := [] }

/-- C2 witness: first event 12 minutes in (grace 10), later events at 5 and
40 minutes — the row stays late with delay 12. -/
theorem lateness_decided_at_first_event_witness :
    ∃ r, findAtt ([720, 300, 2400].foldl
        (fun x u => sp_UpsertAttendanceOnRecognition x 10 1 u) dbEvents) 10 1 =
          some r ∧
      ((delayMinutes 0 720 : Int) ≤ 10 → r.isLate = false) ∧
      ((delayMinutes 0 720 : Int) > 10 →
        r.isLate = true ∧ r.arrivalDelayMinutes = some (delayMinutes 0 720)) :=
  lateness_decided_at_first_event dbEvents 10 1
    { sessionID := 10, courseID := 1, startedAt := 0, endedAt := none,
      status := SessionStatus.active }
    { courseID := 1, lateGraceMinutes := 10, maxAllowedAbsentHours := 8,
      isActive := true }
    (by decide) (by decide) (by decide) 720 [300, 2400]

/-- C10: a recognition event arriving after the session was finalized is
still fully applied — the upsert checks only that the session exists, not its
status. For a student backfilled absent at finalize (`FirstSeenAt = NULL`,
`IsPresent = 0`), the event sets `IsPresent`, decides `IsLate` and
`ArrivalDelayMinutes` from this event (the once-only decision keys on
`FirstSeenAt IS NULL`), marks the event's hour bucket present, and leaves
every enrollment's `HoursAbsentTotal` untouched. -/
theorem post_finalize_recognition_applied (db : DB) (sid st t : Nat)
    (sess : ClassSession) (c : Course) (r : SessionAttendanceRow)
    (hs : findSession db sid = some sess)
    (hfin : sess.status = SessionStatus.finalized)
    (hc : findCourse db sess.courseID = some c)
    (hr : findAtt db sid st = some r) (hfirst : r.firstSeenAt = none)
    (hpres : r.isPresent = false) (hlate : r.isLate = false) :
    ∃ r', findAtt (sp_UpsertAttendanceOnRecognition db sid st t) sid st =
        some r' ∧
      r'.isPresent = true ∧ r'.firstSeenAt = some t ∧
      r'.isLate = (if (delayMinutes sess.startedAt t : Int) >
          c.lateGraceMinutes then true else false) ∧
      r'.arrivalDelayMinutes = some (delayMinutes sess.startedAt t) ∧
      (∃ hrow, findHour (sp_UpsertAttendanceOnRecognition db sid st t) sid st
          (delayMinutes sess.startedAt t / 60) = some hrow ∧
        hrow.isPresent = true) ∧
      (sp_UpsertAttendanceOnRecognition db sid st t).enrollments =
        db.enrollments := by
  refine ⟨_, findAtt_upsert_matched db sid st t sess c r hs hc hr,
    rfl, ?_, ?_, ?_, ?_, upsert_enrollments_eq db sid st t⟩
  · unfold mergeAttendance
    simp [hfirst]
  · unfold mergeAttendance
    simp [hfirst, hlate]
  · unfold mergeAttendance
    simp [hfirst]
  · by_cases hh : (findHour db sid st (delayMinutes sess.startedAt t / 60)).isSome
    · obtain ⟨hrow, hhr⟩ := Option.isSome_iff_exists.mp hh
      exact ⟨_, findHour_upsert_matched db sid st t sess c hrow hs hc hhr, rfl⟩
    · exact ⟨_, findHour_upsert_inserted db sid st t sess c hs hc
        (Option.not_isSome_iff_eq_none.mp hh), rfl⟩

/-- A finalized session whose enrolled student 1 was backfilled absent. -/
def dbPostFinalize : DB :=
  { dbEvents with
    sessions := [{ sessionID := 10, courseID := 1, startedAt := 0,
                   endedAt := some 3600, status := SessionStatus.finalized }]
    sessionAttendance := [backfillRow 10 1]
    sessionHourLog :=
      [{ sessionID := 10, studentID := 1, hourIndex := 0, hourStart := 0,
         isPresent := false, source := HourSource.system }]
    enrollments :=
      [{ studentID := 1, courseID := 1, quiz1 := 0, quiz2 := 0,
         projectGrade := 0, assignmentGrade := 0, midtermGrade := 0,
         finalExamGrade := 0, hoursAbsentTotal := 100 }] }

/-- C10 witness: a recognition 12 minutes in, delivered after finalize, on
the concrete backfilled state. -/
theorem post_finalize_recognition_applied_witness :
    ∃ r', findAtt (sp_UpsertAttendanceOnRecognition dbPostFinalize 10 1 720) 10 1 =
        some r' ∧
      r'.isPresent = true ∧ r'.firstSeenAt = some 720 ∧
      r'.isLate = (if (delayMinutes 0 720 : Int) > 10 then true else false) ∧
      r'.arrivalDelayMinutes = some (delayMinutes 0 720) ∧
      (∃ hrow, findHour (sp_UpsertAttendanceOnRecognition dbPostFinalize 10 1 720)
          10 1 (delayMinutes 0 720 / 60) = some hrow ∧ hrow.isPresent = true) ∧
      (sp_UpsertAttendanceOnRecognition dbPostFinalize 10 1 720).enrollments =
        dbPostFinalize.enrollments :=
  post_finalize_recognition_applied dbPostFinalize 10 1 720
    { sessionID := 10, courseID := 1, startedAt := 0, endedAt := some 3600,
      status := SessionStatus.finalized }
    { courseID := 1, lateGraceMinutes := 10, maxAllowedAbsentHours := 8,
      isActive := true }
    (backfillRow 10 1) (by decide) (by decide) (by decide) (by decide)
    (by decide) (by decide) (by decide)

/-! ## C8: the absentee backfill at finalize -/

/-- On a non-finalized session, `sp_FinalizeSession` runs the mutation
sequence `finalizeCore`. -/
theorem sp_FinalizeSession_eq_core (db : DB) (sid now : Nat)
    (sess : ClassSession) (hs : findSession db sid = some sess)
    (hact : sess.status = SessionStatus.active) :
    sp_FinalizeSession db sid now = finalizeCore db sid sess (sess.endedAt.getD now) := by
  unfold sp_FinalizeSession
  rw [hs]
  simp [hact]

/-- C8 (amended): at finalize time the backfill inserts an absent
`AttendanceRecord` for exactly those students with an `Enrollments` row in
the session's course and no existing record — rows that already exist are
kept verbatim, every backfilled row is the absent shape, and the student's
`IsActive` flag plays no role (the statement never joins `Students`). -/
theorem backfill_exactly_missing_enrolled (db : DB) (sid now : Nat)
    (sess : ClassSession) (hs : findSession db sid = some sess)
    (hact : sess.status = SessionStatus.active) :
    (∀ st r, findAtt db sid st = some r →
      findAtt (sp_FinalizeSession db sid now) sid st = some r) ∧
    (∀ st, findAtt db sid st = none →
      ((findAtt (sp_FinalizeSession db sid now) sid st).isSome ↔
        ∃ e ∈ db.enrollments, e.courseID = sess.courseID ∧ e.studentID = st)) ∧
    (∀ st, findAtt db sid st = none →
      ∀ r, findAtt (sp_FinalizeSession db sid now) sid st = some r →
        r = backfillRow sid st) := by
  rw [sp_FinalizeSession_eq_core db sid now sess hs hact]
  have hatt : ∀ st, findAtt (finalizeCore db sid sess (sess.endedAt.getD now)) sid st =
      ((db.sessionAttendance.find?
          (fun r => r.sessionID == sid && r.studentID == st)).or
        ((backfillAtt db sid sess.courseID).find?
          (fun r => r.sessionID == sid && r.studentID == st))) := by
    intro st
    show (db.sessionAttendance ++ backfillAtt db sid sess.courseID).find? _ = _
    exact List.find?_append
  refine ⟨fun st r hr => ?_, fun st hnone => ?_, fun st hnone r hr => ?_⟩
  · rw [hatt st]
    unfold findAtt at hr
    rw [hr]
    rfl
  · rw [hatt st]
    unfold findAtt at hnone
    rw [hnone, Option.none_or]
    unfold backfillAtt
    rw [List.find?_map, Option.isSome_map']
    rw [List.find?_isSome]
    constructor
    · rintro ⟨e, he, hpe⟩
      rw [List.mem_filter] at he
      simp only [Function.comp, backfillRow, Bool.and_eq_true, beq_iff_eq] at hpe he
      exact ⟨e, he.1, he.2.1, hpe.2⟩
    · rintro ⟨e, he, hcid, hst⟩
      refine ⟨e, List.mem_filter.mpr ⟨he, ?_⟩, ?_⟩
      · simp only [Bool.and_eq_true, beq_iff_eq, Option.isNone_iff_eq_none]
        subst hst
        exact ⟨hcid, hnone⟩
      · simp [Function.comp, backfillRow, hst]
  · rw [hatt st] at hr
    unfold findAtt at hnone
    rw [hnone, Option.none_or] at hr
    have hmem := List.mem_of_find?_eq_some hr
    have hp := List.find?_some hr
    unfold backfillAtt at hmem
    rw [List.mem_map] at hmem
    obtain ⟨e, _, rfl⟩ := hmem
    simp only [backfillRow, Bool.and_eq_true, beq_iff_eq] at hp
    simp [backfillRow, hp.2]

/-- A course-1 session whose only enrolled student is **inactive** and has no
attendance record. -/
def dbInactiveStudent : DB :=
  { students := [{ studentID := 2, isActive := false }]
    courses := [{ courseID := 1, lateGraceMinutes := 10,
                  maxAllowedAbsentHours := 8, isActive := true }]
    enrollments :=
      [{ studentID := 2, courseID := 1, quiz1 := 0, quiz2 := 0,
         projectGrade := 0, assignmentGrade := 0, midtermGrade := 0,
         finalExamGrade := 0, hoursAbsentTotal := 0 }]
    sessions := [{ sessionID := 10, courseID := 1, startedAt := 0,
                   endedAt := some 3600, status := SessionStatus.active }]
    sessionAttendance := []
    sessionHourLog := [] }

/-- C8 counterexample: the enrolled student is inactive
(`Students.IsActive = 0`), yet finalize backfills an absent record for them —
the backfill reads only `Enrollments`, never the student's active flag. -/
theorem backfill_inactive_student_counterexample :
    (dbInactiveStudent.students.find? (fun s => s.studentID == 2)).map
        Student.isActive = some false ∧
    findAtt (sp_FinalizeSession dbInactiveStudent 10 3600) 10 2 =
      some (backfillRow 10 2) := by
  decide

/-- C8 witness: the amended characterization instantiated on the
inactive-student database — the backfilled record for student 2 exists
because an enrollment row in the session's course does. -/
theorem backfill_exactly_missing_enrolled_witness :
    (findAtt (sp_FinalizeSession dbInactiveStudent 10 3600) 10 2).isSome ↔
      ∃ e ∈ dbInactiveStudent.enrollments, e.courseID = 1 ∧ e.studentID = 2 :=
  (backfill_exactly_missing_enrolled dbInactiveStudent 10 3600
    { sessionID := 10, courseID := 1, startedAt := 0, endedAt := some 3600,
      status := SessionStatus.active } (by decide) (by decide)).2.1 2 (by decide)

/-! ## C4: `HoursAbsentTotal` is non-negative and monotone -/

/-- C4: across the three operations, `Enrollments.HoursAbsentTotal` never
decreases and stays non-negative; `sp_StartSession` and
`sp_UpsertAttendanceOnRecognition` never touch `Enrollments` at all, and
when `sp_FinalizeSession` changes an enrollment it adds exactly
`100 ×` the count of that student's absent hour rows of the finalized
session (the enrollment's course being the session's course). -/
theorem hoursAbsentTotal_monotone_nondecreasing (db : DB) :
    (∀ cid t nsid db', sp_StartSession db cid t nsid = Except.ok db' →
      db'.enrollments = db.enrollments) ∧
    (∀ sid st t,
      (sp_UpsertAttendanceOnRecognition db sid st t).enrollments =
        db.enrollments) ∧
    (∀ sid now,
      (sp_FinalizeSession db sid now).enrollments.length =
        db.enrollments.length ∧
      ∀ i (h1 : i < db.enrollments.length)
          (h2 : i < (sp_FinalizeSession db sid now).enrollments.length),
        (((sp_FinalizeSession db sid now).enrollments.get ⟨i, h2⟩).studentID =
            (db.enrollments.get ⟨i, h1⟩).studentID ∧
          ((sp_FinalizeSession db sid now).enrollments.get ⟨i, h2⟩).courseID =
            (db.enrollments.get ⟨i, h1⟩).courseID) ∧
        (db.enrollments.get ⟨i, h1⟩).hoursAbsentTotal ≤
          ((sp_FinalizeSession db sid now).enrollments.get ⟨i, h2⟩).hoursAbsentTotal ∧
        (0 ≤ (db.enrollments.get ⟨i, h1⟩).hoursAbsentTotal →
          0 ≤ ((sp_FinalizeSession db sid now).enrollments.get ⟨i, h2⟩).hoursAbsentTotal) ∧
        (((sp_FinalizeSession db sid now).enrollments.get ⟨i, h2⟩).hoursAbsentTotal =
            (db.enrollments.get ⟨i, h1⟩).hoursAbsentTotal ∨
          ∃ sess, findSession db sid = some sess ∧
            (db.enrollments.get ⟨i, h1⟩).courseID = sess.courseID ∧
            ((sp_FinalizeSession db sid now).enrollments.get ⟨i, h2⟩).hoursAbsentTotal =
              (db.enrollments.get ⟨i, h1⟩).hoursAbsentTotal +
                100 * (absentHoursOf (sp_FinalizeSession db sid now).sessionHourLog
                  sid ((db.enrollments.get ⟨i, h1⟩).studentID) : Int))) := by
  refine ⟨fun cid t nsid db' h => ?_, fun sid st t =>
    upsert_enrollments_eq db sid st t, fun sid now => ?_⟩
  · unfold sp_StartSession at h
    by_cases hc : (findCourse db cid).isSome
    · rw [if_pos hc] at h
      cases h
      rfl
    · rw [if_neg hc] at h
      cases h
  · rcases hsv : findSession db sid with _ | sess
    · have hdb : sp_FinalizeSession db sid now = db := by
        unfold sp_FinalizeSession
        rw [hsv]
      refine ⟨by rw [hdb], fun i h1 h2 => ?_⟩
      simp only [List.get_eq_getElem, hdb]
      simp
    · by_cases hfin : sess.status = SessionStatus.finalized
      · have hdb : sp_FinalizeSession db sid now = db := by
          unfold sp_FinalizeSession
          rw [hsv]
          simp [hfin]
        refine ⟨by rw [hdb], fun i h1 h2 => ?_⟩
        simp only [List.get_eq_getElem, hdb]
        simp
      · have hdb : sp_FinalizeSession db sid now =
            finalizeCore db sid sess (sess.endedAt.getD now) := by
          unfold sp_FinalizeSession
          rw [hsv]
          simp [hfin]
        rw [hdb]
        have hag : (finalizeCore db sid sess (sess.endedAt.getD now)).enrollments =
            db.enrollments.map (fun e =>
              if e.courseID == sess.courseID &&
                  ((finalizeCore db sid sess (sess.endedAt.getD now)).sessionHourLog.find?
                    (fun r => r.sessionID == sid && r.studentID == e.studentID)).isSome then
                { e with hoursAbsentTotal := e.hoursAbsentTotal +
                    100 * (absentHoursOf
                      (finalizeCore db sid sess (sess.endedAt.getD now)).sessionHourLog
                      sid e.studentID : Int) }
              else e) := rfl
        refine ⟨by rw [hag]; simp, fun i h1 h2 => ?_⟩
        have hget : (finalizeCore db sid sess (sess.endedAt.getD now)).enrollments.get ⟨i, h2⟩ =
            (fun e =>
              if e.courseID == sess.courseID &&
                  ((finalizeCore db sid sess (sess.endedAt.getD now)).sessionHourLog.find?
                    (fun r => r.sessionID == sid && r.studentID == e.studentID)).isSome then
                { e with hoursAbsentTotal := e.hoursAbsentTotal +
                    100 * (absentHoursOf
                      (finalizeCore db sid sess (sess.endedAt.getD now)).sessionHourLog
                      sid e.studentID : Int) }
              else e) (db.enrollments.get ⟨i, h1⟩) := by
          simp only [List.get_eq_getElem]
          simp only [hag]
          rw [List.getElem_map]
        simp only [hget]
        set e := db.enrollments.get ⟨i, h1⟩ with he
        by_cases hcond : (e.courseID == sess.courseID &&
            ((finalizeCore db sid sess (sess.endedAt.getD now)).sessionHourLog.find?
              (fun r => r.sessionID == sid && r.studentID == e.studentID)).isSome) = true
        · rw [if_pos hcond]
          rw [Bool.and_eq_true, beq_iff_eq] at hcond
          exact ⟨⟨rfl, rfl⟩, by simp, fun h => by simp; omega,
            Or.inr ⟨sess, rfl, hcond.1, rfl⟩⟩
        · rw [if_neg hcond]
          exact ⟨⟨rfl, rfl⟩, le_refl _, fun h => h, Or.inl rfl⟩

/-- The session row inserted by the C4 witness's `sp_StartSession` call. -/
def dbStarted : DB :=
  { dbEvents with
    sessions := { sessionID := 77, courseID := 1, startedAt := 0,
                  endedAt := none,
                  status := SessionStatus.active } :: dbEvents.sessions }

/-- C4 witness: on the concrete database, starting a session and processing a
recognition event leave `Enrollments` untouched, and finalizing preserves the
enrollment count. -/
theorem hoursAbsentTotal_monotone_nondecreasing_witness :
    dbStarted.enrollments = dbEvents.enrollments ∧
    (sp_UpsertAttendanceOnRecognition dbEvents 10 1 720).enrollments =
      dbEvents.enrollments ∧
    (sp_FinalizeSession dbEvents 10 3600).enrollments.length =
      dbEvents.enrollments.length ∧
    (dbEvents.enrollments.get ⟨0, by decide⟩).hoursAbsentTotal ≤
      ((sp_FinalizeSession dbEvents 10 3600).enrollments.get
        ⟨0, by decide⟩).hoursAbsentTotal :=
  ⟨(hoursAbsentTotal_monotone_nondecreasing dbEvents).1 1 0 77 dbStarted rfl,
   (hoursAbsentTotal_monotone_nondecreasing dbEvents).2.1 10 1 720,
   ((hoursAbsentTotal_monotone_nondecreasing dbEvents).2.2 10 3600).1,
   (((hoursAbsentTotal_monotone_nondecreasing dbEvents).2.2 10 3600).2 0
     (by decide) (by decide)).2.1⟩

/-! ## C3: finalizing a session with zero recognition events -/

/-- Counting the rows of a per-student flatMap that a filter keeps, when the
filter keeps exactly `k` rows of each block for the distinguished student and
none otherwise. -/
theorem length_filter_flatMap_student (l : List Enrollment)
    (f : Nat → List SessionHourLogRow) (p : SessionHourLogRow → Bool)
    (st k : Nat)
    (hall : ∀ s, ((f s).filter p).length = if s == st then k else 0) :
    ((l.flatMap (fun e => f e.studentID)).filter p).length =
      l.countP (fun e => e.studentID == st) * k := by
  induction l with
  | nil => simp
  | cons a l ih =>
    rw [List.flatMap_cons, List.filter_append, List.length_append, ih,
        List.countP_cons, hall a.studentID]
    by_cases h : (a.studentID == st) = true
    · rw [if_pos h, if_pos h]
      ring
    · rw [if_neg h, if_neg h]
      ring

/-- In a list of enrollments with pairwise distinct student ids, exactly one
row carries a member's student id. -/
theorem countP_studentID_eq_one (l : List Enrollment) (e : Enrollment)
    (hnd : (l.map Enrollment.studentID).Nodup) (he : e ∈ l) :
    l.countP (fun x => x.studentID == e.studentID) = 1 := by
  induction l with
  | nil => cases he
  | cons a l ih =>
    rw [List.map_cons, List.nodup_cons] at hnd
    rw [List.countP_cons]
    rcases List.mem_cons.mp he with rfl | hmem
    · rw [if_pos (by simp)]
      have hz : l.countP (fun x => x.studentID == e.studentID) = 0 := by
        rw [List.countP_eq_zero]
        intro x hx
        simp only [beq_iff_eq]
        intro hxe
        exact hnd.1 (hxe ▸ List.mem_map_of_mem Enrollment.studentID hx)
      rw [hz]
    · have hne : (a.studentID == e.studentID) = false := by
        simp only [beq_eq_false_iff_ne]
        intro hae
        exact hnd.1 (hae ▸ List.mem_map_of_mem Enrollment.studentID hmem)
      rw [if_neg (by simp [hne]), ih hnd.2 hmem]

/-- C3: finalizing an active session with no recognition events backfills one
absent record per enrollment row of the course, seeds
`enrollments × total_hours` absent `'system'` hour rows with indices in
`[0, total_hours)`, adds exactly `total_hours` to each enrolled student's
`HoursAbsentTotal` (and leaves other enrollments alone), where `total_hours`
is the clamped ceiling `⌈max(1, duration)/60⌉` of the session duration (the
`≤ 513` hypothesis keeps the run inside the `MAXRECURSION 512` bound of the
`HourSeries` CTE, beyond which the SQL statement would error). -/
theorem finalize_zero_events_counts (db : DB) (sid now : Nat)
    (sess : ClassSession) (hs : findSession db sid = some sess)
    (hact : sess.status = SessionStatus.active)
    (hNoAtt : ∀ r ∈ db.sessionAttendance, r.sessionID ≠ sid)
    (hNoHour : ∀ r ∈ db.sessionHourLog, r.sessionID ≠ sid)
    (hnd : ((db.enrollments.filter
        (fun e => e.courseID == sess.courseID)).map Enrollment.studentID).Nodup)
    (hTH : totalHoursOf sess.startedAt (sess.endedAt.getD now) ≤ 513) :
    (((sp_FinalizeSession db sid now).sessionAttendance.filter
        (fun r => r.sessionID == sid)).length =
      (db.enrollments.filter (fun e => e.courseID == sess.courseID)).length) ∧
    (∀ r ∈ (sp_FinalizeSession db sid now).sessionAttendance,
      r.sessionID = sid → r = backfillRow sid r.studentID) ∧
    (((sp_FinalizeSession db sid now).sessionHourLog.filter
        (fun r => r.sessionID == sid)).length =
      (db.enrollments.filter (fun e => e.courseID == sess.courseID)).length *
        totalHoursOf sess.startedAt (sess.endedAt.getD now)) ∧
    (∀ r ∈ (sp_FinalizeSession db sid now).sessionHourLog,
      r.sessionID = sid → r.isPresent = false ∧ r.source = HourSource.system ∧
        r.hourIndex < totalHoursOf sess.startedAt (sess.endedAt.getD now)) ∧
    ((sp_FinalizeSession db sid now).enrollments =
      db.enrollments.map (fun e =>
        if e.courseID == sess.courseID then
          { e with hoursAbsentTotal := e.hoursAbsentTotal +
              100 * (totalHoursOf sess.startedAt (sess.endedAt.getD now) : Int) }
        else e)) ∧
    (durationMinutes sess.startedAt (sess.endedAt.getD now) ≤
        60 * totalHoursOf sess.startedAt (sess.endedAt.getD now) ∧
      60 * totalHoursOf sess.startedAt (sess.endedAt.getD now) <
        durationMinutes sess.startedAt (sess.endedAt.getD now) + 60) := by
  have hAttNone : ∀ st, findAtt db sid st = none := by
    intro st
    rw [findAtt, List.find?_eq_none]
    intro r hr
    simp [hNoAtt r hr]
  have hHourNone : ∀ st h, findHour db sid st h = none := by
    intro st h
    rw [findHour, List.find?_eq_none]
    intro r hr
    simp [hNoHour r hr]
  rw [sp_FinalizeSession_eq_core db sid now sess hs hact]
  have hfilterB : db.enrollments.filter
      (fun e => e.courseID == sess.courseID && (findAtt db sid e.studentID).isNone) =
      db.enrollments.filter (fun e => e.courseID == sess.courseID) :=
    List.filter_congr (fun e _ => by rw [hAttNone e.studentID]; simp)
  have hBack : backfillAtt db sid sess.courseID =
      (db.enrollments.filter (fun e => e.courseID == sess.courseID)).map
        (fun e => backfillRow sid e.studentID) := by
    unfold backfillAtt
    rw [hfilterB]
  have hSeed : seedHours db sid sess.courseID sess.startedAt
      (totalHoursOf sess.startedAt (sess.endedAt.getD now)) =
      (db.enrollments.filter (fun e => e.courseID == sess.courseID)).flatMap
        (fun e => (List.range (totalHoursOf sess.startedAt
            (sess.endedAt.getD now))).map (fun h =>
          systemHourRow sid e.studentID h sess.startedAt)) := by
    unfold seedHours
    refine List.flatMap_congr (fun e _ => ?_)
    rw [List.filter_eq_self.mpr (fun h _ => by rw [hHourNone e.studentID h]; rfl)]
  refine ⟨?_, ?_, ?_, ?_, ?_, ?_⟩
  · show ((db.sessionAttendance ++ backfillAtt db sid sess.courseID).filter
        (fun r => r.sessionID == sid)).length = _
    rw [List.filter_append,
        List.filter_eq_nil_iff.mpr (fun r hr => by simp [hNoAtt r hr]), hBack,
        List.filter_eq_self.mpr (fun r hr => by
          obtain ⟨e, _, rfl⟩ := List.mem_map.mp hr
          simp [backfillRow])]
    simp
  · intro r hr hrs
    rcases List.mem_append.mp hr with hold | hnew
    · exact absurd hrs (hNoAtt r hold)
    · rw [hBack] at hnew
      obtain ⟨e, _, rfl⟩ := List.mem_map.mp hnew
      rfl
  · show ((db.sessionHourLog ++ seedHours db sid sess.courseID sess.startedAt
        (totalHoursOf sess.startedAt (sess.endedAt.getD now))).filter
          (fun r => r.sessionID == sid)).length = _
    rw [List.filter_append,
        List.filter_eq_nil_iff.mpr (fun r hr => by simp [hNoHour r hr]), hSeed,
        List.filter_eq_self.mpr (fun r hr => by
          obtain ⟨e, _, hre⟩ := List.mem_flatMap.mp hr
          obtain ⟨h, _, rfl⟩ := List.mem_map.mp hre
          simp [systemHourRow])]
    rw [List.nil_append, List.length_flatMap,
        List.map_congr_left (fun e _ => by
          show ((List.range _).map _).length = _
          rw [List.length_map, List.length_range]),
        sum_map_const]
  · intro r hr hrs
    rcases List.mem_append.mp hr with hold | hnew
    · exact absurd hrs (hNoHour r hold)
    · rw [hSeed] at hnew
      obtain ⟨e, _, hre⟩ := List.mem_flatMap.mp hnew
      obtain ⟨h, hh, rfl⟩ := List.mem_map.mp hre
      exact ⟨rfl, rfl, List.mem_range.mp hh⟩
  · show aggregateAbsence db.enrollments
        (db.sessionHourLog ++ seedHours db sid sess.courseID sess.startedAt
          (totalHoursOf sess.startedAt (sess.endedAt.getD now))) sid
        sess.courseID = _
    unfold aggregateAbsence
    refine List.map_congr_left (fun e he => ?_)
    by_cases hcid : (e.courseID == sess.courseID) = true
    · have heE : e ∈ db.enrollments.filter (fun x => x.courseID == sess.courseID) :=
        List.mem_filter.mpr ⟨he, hcid⟩
      have hTHpos : 1 ≤ totalHoursOf sess.startedAt (sess.endedAt.getD now) := by
        unfold totalHoursOf
        omega
      have hrow0 : systemHourRow sid e.studentID 0 sess.startedAt ∈
          seedHours db sid sess.courseID sess.startedAt
            (totalHoursOf sess.startedAt (sess.endedAt.getD now)) := by
        rw [hSeed]
        exact List.mem_flatMap.mpr ⟨e, heE,
          List.mem_map.mpr ⟨0, List.mem_range.mpr (by omega), rfl⟩⟩
      have hfindSome : ((db.sessionHourLog ++ seedHours db sid sess.courseID
          sess.startedAt (totalHoursOf sess.startedAt (sess.endedAt.getD now))).find?
            (fun r => r.sessionID == sid && r.studentID == e.studentID)).isSome :=
        List.find?_isSome.mpr ⟨_, List.mem_append_right _ hrow0,
          by simp [systemHourRow]⟩
      rw [if_pos (by rw [Bool.and_eq_true]; exact ⟨hcid, hfindSome⟩), if_pos hcid]
      have hall : ∀ s, (((List.range (totalHoursOf sess.startedAt
          (sess.endedAt.getD now))).map
            (fun h => systemHourRow sid s h sess.startedAt)).filter
          (fun r => r.sessionID == sid && r.studentID == e.studentID &&
            !r.isPresent)).length =
          if s == e.studentID then
            totalHoursOf sess.startedAt (sess.endedAt.getD now) else 0 := by
        intro s
        have hq : ((List.range (totalHoursOf sess.startedAt
            (sess.endedAt.getD now))).map
              (fun h => systemHourRow sid s h sess.startedAt)).filter
            (fun r => r.sessionID == sid && r.studentID == e.studentID &&
              !r.isPresent) =
            ((List.range (totalHoursOf sess.startedAt
              (sess.endedAt.getD now))).map
                (fun h => systemHourRow sid s h sess.startedAt)).filter
            (fun _ => s == e.studentID) :=
          List.filter_congr (fun r hr => by
            obtain ⟨h, _, rfl⟩ := List.mem_map.mp hr
            simp [systemHourRow])
        rw [hq]
        by_cases hseq : (s == e.studentID) = true
        · rw [if_pos hseq, List.filter_eq_self.mpr (fun r _ => hseq),
              List.length_map, List.length_range]
        · rw [if_neg hseq]
          rw [Bool.not_eq_true] at hseq
          rw [hseq, List.filter_false]
          rfl
      have hcount : absentHoursOf
          (db.sessionHourLog ++ seedHours db sid sess.courseID sess.startedAt
            (totalHoursOf sess.startedAt (sess.endedAt.getD now))) sid e.studentID =
          totalHoursOf sess.startedAt (sess.endedAt.getD now) := by
        unfold absentHoursOf
        rw [List.filter_append,
            List.filter_eq_nil_iff.mpr (fun r hr => by simp [hNoHour r hr]),
            hSeed, List.nil_append,
            length_filter_flatMap_student _ _ _ e.studentID
              (totalHoursOf sess.startedAt (sess.endedAt.getD now)) hall,
            countP_studentID_eq_one _ e hnd heE, one_mul]
      rw [hcount]
    · rw [if_neg (by rw [Bool.and_eq_true]; rintro ⟨h1, _⟩; exact hcid h1),
          if_neg hcid]
  · unfold totalHoursOf
    unfold durationMinutes
    omega

/-- Two enrolled students, a 125-minute session, no recognition events. -/
def dbTwo : DB :=
  { students := [{ studentID := 1, isActive := true },
                 { studentID := 2, isActive := true }]
    courses := [{ courseID := 1, lateGraceMinutes := 10,
                  maxAllowedAbsentHours := 8, isActive := true }]
    enrollments :=
      [{ studentID := 1, courseID := 1, quiz1 := 0, quiz2 := 0,
         projectGrade := 0, assignmentGrade := 0, midtermGrade := 0,
         finalExamGrade := 0, hoursAbsentTotal := 0 },
       { studentID := 2, courseID := 1, quiz1 := 0, quiz2 := 0,
         projectGrade := 0, assignmentGrade := 0, midtermGrade := 0,
         finalExamGrade := 0, hoursAbsentTotal := 0 }]
    sessions := [{ sessionID := 10, courseID := 1, startedAt := 0,
                   endedAt := some 7500, status := SessionStatus.active }]
    sessionAttendance := []
    sessionHourLog := [] }

/-- C3 witness: the 125-minute two-student session — 2 absent records,
`2 × 3` absent hour rows (duration 125 min → `total_hours = 3`), and both
students' totals rise by 3 hours. -/
theorem finalize_zero_events_counts_witness :
    ((sp_FinalizeSession dbTwo 10 0).sessionAttendance.filter
        (fun r => r.sessionID == 10)).length = 2 ∧
    ((sp_FinalizeSession dbTwo 10 0).sessionHourLog.filter
        (fun r => r.sessionID == 10)).length = 2 * 3 ∧
    (sp_FinalizeSession dbTwo 10 0).enrollments.map Enrollment.hoursAbsentTotal =
      [300, 300] := by
  have h := finalize_zero_events_counts dbTwo 10 0
    { sessionID := 10, courseID := 1, startedAt := 0, endedAt := some 7500,
      status := SessionStatus.active }
    (by decide) (by decide) (by decide) (by decide) (by decide) (by decide)
  exact ⟨h.1, h.2.2.1, by rw [h.2.2.2.2.1]; rfl⟩

end AttendanceAI
